import Mathlib

/-!
Shallow embedding of the viamboatbase boat-base motion controller
(the repository files `base.go`, `pid.go`, `config.go`) together with
proofs about the claims of its specification.

Modelling conventions:
* Go `float64` values are modelled as exact rationals (`ℚ`); the control
  arithmetic the claims exercise uses only field operations, `abs`, `min`
  and `max`, which are exact.
* `time.Duration` arguments are modelled directly as a number of seconds
  (`Duration.Seconds` is the only use the code makes of them).
* Go `error` results are modelled as `List String`: `[]` is the `nil`
  error and `multierr.Combine` is list append (nil operands vanish).
* The motor-geometry weight model (which needs trigonometry) is modelled
  over `ℝ` at the end of the definitions.
-/

namespace Boatbase

/-- The fields of `r3.Vector` that the controller uses, over `ℚ`. -/
structure Vec3 where
  x : ℚ
  y : ℚ
  z : ℚ
deriving DecidableEq, Repr

/-- `r3.Vector\x7b\x7d`, the zero vector. -/
def Vec3.zero : Vec3 := ⟨0, 0, 0⟩

/-- Go errors: `[]` is `nil`; `multierr.Combine` is `++`. -/
abbrev Err := List String

/-- `pidState` from `pid.go`: gains, clamp bounds, and mutable state. -/
structure pidState where
  proportionalGain : ℚ
  integralGain : ℚ
  derivativeGain : ℚ
  minOutput : ℚ
  maxOutput : ℚ
  integral : ℚ
  previousError : ℚ
deriving DecidableEq, Repr

/-- `pidState.setDefaults` from `pid.go`: sets the gains to
0.08 / 0.075 / 0.0001 and the clamp bounds to [-1, 1]; the mutable
`integral` / `previousError` state is left untouched. -/
def pidState.setDefaults (pid : pidState) : pidState :=
  { pid with
    proportionalGain := 2/25
    integralGain := 3/40
    derivativeGain := 1/10000
    minOutput := -1
    maxOutput := 1 }

/-- `pidState.Control` from `pid.go`.  `dt` is
`timeSinceLastCall.Seconds()`.  Returns the output together with the
updated controller state (the Go method mutates its receiver). -/
def pidState.Control (pid : pidState) (target current dt : ℚ) : ℚ × pidState :=
  let error := target - current
  let p := pid.proportionalGain * error
  let integral := pid.integral + error * dt
  let i := pid.integralGain * integral
  let d := pid.derivativeGain * (error - pid.previousError) / dt
  let pid' := { pid with integral := integral, previousError := error }
  let n := p + i + d
  let n := if pid.minOutput ≠ 0 ∧ n < pid.minOutput then pid.minOutput else n
  let n := if pid.maxOutput ≠ 0 ∧ n > pid.maxOutput then pid.maxOutput else n
  (n, pid')

/-- The clamping rule exactly as the specification words it: the output is
clamped below at `lo` only when `lo` is not exactly 0, and above at `hi`
only when `hi` is not exactly 0 (a bound of exactly zero disables the
clamp on that side).  Stated separately from `pidState.Control` so the
claim about `Control` compares the code against the spec's wording. -/
def clampZeroSentinel (lo hi n : ℚ) : ℚ :=
  let n1 := if lo ≠ 0 ∧ n < lo then lo else n
  if hi ≠ 0 ∧ n1 > hi then hi else n1

/-- `goalScale` from `config.go`.  The source carries the doc comment
`currentVal=2 otherVal=1, currentGoal=1, otherGoal=1 = 1` and
`currentVal=-2 otherVal=1, currentGoal=1, otherGoal=1 = -1`.
Rational division by zero yields 0; the deadband guard keeps `otherGoal`
away from zero on the paths the claims exercise. -/
def goalScale (currentVal otherVal currentGoal otherGoal : ℚ) : ℚ :=
  if |currentGoal| < 5/100 ∨ |otherGoal| < 5/100 then currentVal
  else
    let ratioGoal := |currentGoal / otherGoal|
    let ratioCur := |currentVal / otherVal|
    if ratioCur > ratioGoal then otherVal * ratioGoal else currentVal

/-- `controlMode` from `base.go`. -/
inductive controlMode where
  | controlNone
  | controlVelocity
  | controlHeading
deriving DecidableEq, Repr

/-- `boatState` from `base.go`: the shared control state guarded by
`stateMutex`. -/
structure boatState where
  threadStarted : Bool
  controlState : controlMode
  lastPower : List ℚ
  lastPowerLinear : Vec3
  lastPowerAngular : Vec3
  velocityLinearGoal : Vec3
  velocityAngularGoal : Vec3
  compassGoal : ℚ
  spinVelocity : ℚ
deriving DecidableEq, Repr

/-- A configured motor, as observed through the motor driver interface:
its current power, and whether its `SetPower` / `Stop` calls fail (the
driver is an external collaborator, so failure is a free parameter). -/
structure Motor where
  power : ℚ
  failSetPower : Bool
  failStop : Bool
deriving DecidableEq, Repr

/-- The movement sensor interface, with each read either a value or an
error message. -/
instance : DecidableEq (Except String ℚ) := fun a b =>
  match a, b with
  | Except.error x, Except.error y =>
    if h : x = y then isTrue (h ▸ rfl) else isFalse (fun hc => h (Except.error.inj hc))
  | Except.error _, Except.ok _ => isFalse (fun hc => Except.noConfusion hc)
  | Except.ok _, Except.error _ => isFalse (fun hc => Except.noConfusion hc)
  | Except.ok x, Except.ok y =>
    if h : x = y then isTrue (h ▸ rfl) else isFalse (fun hc => h (Except.ok.inj hc))

structure MovementSensor where
  angularVelocityZ : Except String ℚ
  compassHeading : Except String ℚ
deriving DecidableEq

/-- A boat: its shared control state, its motors (in configuration
order), and its optional movement sensor. -/
structure Boat where
  state : boatState
  motors : List Motor
  movementSensor : Option MovementSensor
deriving DecidableEq

/-- `updateVelocityGoalForHeading` from `base.go`: the heading-hold
shaper, piecewise on `diff = heading - compassGoal`. -/
def updateVelocityGoalForHeading (state : boatState) (heading : ℚ) : boatState :=
  let diff := heading - state.compassGoal
  let z :=
    if diff < -5 then -1 * state.spinVelocity
    else if diff > 5 then state.spinVelocity
    else if diff < -1 then (diff * -1 / 5) * state.spinVelocity
    else if diff > 1 then (diff / 5) * state.spinVelocity
    else 0
  { state with velocityAngularGoal := { state.velocityAngularGoal with z := z } }

/-- The loop `for math.Abs(delta) < .01 \x7b delta *= 2 \x7d` in
`computeNextPower` (`base.go`).  The Go loop would not terminate at
`delta = 0`, but its only call site guards `|angularDiff| > 1`, so there
`|delta| > 1/360 > 0`; we make the function total by returning 0 at 0
(unreachable at the call site). -/
def doubleUntil (delta : ℚ) : ℚ :=
  if h : |delta| < 1/100 ∧ delta ≠ 0 then doubleUntil (2 * delta) else delta
termination_by (⌈(1 : ℚ) / (100 * |delta|)⌉).toNat
decreasing_by
  obtain ⟨h1, h2⟩ := h
  have habs2 : |2 * delta| = 2 * |delta| := by
    rw [abs_mul]; norm_num
  have hy : (1 : ℚ) < 1 / (100 * |delta|) := by
    rw [lt_div_iff₀ (by positivity)]
    nlinarith
  have hceil : 1 < ⌈(1 : ℚ) / (100 * |delta|)⌉ := by
    exact_mod_cast Int.lt_ceil.mpr (by exact_mod_cast hy)
  have hhalf : (1 : ℚ) / (100 * |2 * delta|) = (1 / (100 * |delta|)) / 2 := by
    rw [habs2]; ring
  have hle : ⌈(1 : ℚ) / (100 * |2 * delta|)⌉ ≤ ⌈(1 : ℚ) / (100 * |delta|)⌉ - 1 := by
    rw [hhalf]
    rw [Int.ceil_le]
    push_cast
    have hup : (1 : ℚ) / (100 * |delta|) ≤ (⌈(1 : ℚ) / (100 * |delta|)⌉ : ℚ) := Int.le_ceil _
    have h2le : (2 : ℚ) ≤ (⌈(1 : ℚ) / (100 * |delta|)⌉ : ℚ) := by
      exact_mod_cast hceil
    linarith
  omega

/-- `computeNextPower` from `base.go` (the `// TEMP` version actually in
the source): copies the linear velocity goal straight into the linear
power and nudges the angular power by a proportional heuristic; it never
invokes a PID controller.  The `logger` argument only logs and is
dropped. -/
def computeNextPower (state : boatState) (angularVelocityZ : ℚ) : Vec3 × Vec3 :=
  let linear := state.lastPowerLinear
  let angular := state.lastPowerAngular
  let angularDiff := angularVelocityZ - state.velocityAngularGoal.z
  let angular :=
    if |angularDiff| > 1 then
      let delta := doubleUntil (angularDiff / 360)
      let z := angular.z - delta * 10
      let z := max (-1) z
      let z := min 1 z
      { angular with z := z }
    else angular
  let linear := { linear with y := state.velocityLinearGoal.y, x := state.velocityLinearGoal.x }
  (linear, angular)

/-- Modelled from the spec: the PID-based velocity tick of §4.6 ("if
velocity-hold, run both PIDs against current goals and measured
velocities"), which is what the repository's own test
`TestComputeNextPower` expects of `computeNextPower` (it initializes
`state.angularPID` / `state.linearPID` and passes a measured linear
velocity) but which is absent from the provided `base.go`.  `dt` is
the background-loop period, 500 ms = 1/2 s. -/
def nextPowerPIDSpec (linearPID angularPID : pidState)
    (linearGoalY angularGoalZ measuredLinearY measuredAngularZ : ℚ) :
    (ℚ × ℚ) × (pidState × pidState) :=
  let lr := linearPID.Control linearGoalY measuredLinearY (1/2)
  let ar := angularPID.Control angularGoalZ measuredAngularZ (1/2)
  ((lr.1, ar.1), (lr.2, ar.2))

/-- `startVelocityThreadInLock` from `base.go`: no-op when the thread is
already running, a configuration error when no movement sensor is
configured, otherwise marks the thread started (the spawned goroutine
itself is the loop `velocityThreadLoop`, modelled separately). -/
def startVelocityThreadInLock (b : Boat) : Boat × Err :=
  if b.state.threadStarted then (b, [])
  else
    match b.movementSensor with
    | none => (b, ["no movementSensor"])
    | some _ => ({ b with state := { b.state with threadStarted := true } }, [])

/-- `SetVelocity` from `base.go`: starts the background thread (may fail),
then enters velocity-hold with the given goals. -/
def SetVelocity (b : Boat) (linear angular : Vec3) : Boat × Err :=
  let r := startVelocityThreadInLock b
  if r.2 ≠ [] then r
  else
    ({ r.1 with state :=
      { r.1.state with
        controlState := controlMode.controlVelocity
        velocityLinearGoal := linear
        velocityAngularGoal := angular } }, [])

/-- The synchronous part of `Spin` from `base.go`: the sensor check, the
compass read, the state update entering heading-hold, and the thread
start.  The trailing `WaitForSuccess` polling loop (blocking on real time
and on concurrent sensor reads) is not modelled; no claim depends on it. -/
def Spin (b : Boat) (angleDeg degsPerSec : ℚ) : Boat × Err :=
  match b.movementSensor with
  | none => (b, ["no movementSensor"])
  | some s =>
    match s.compassHeading with
    | Except.error e => (b, [e])
    | Except.ok compass =>
      let goal := compass + angleDeg
      let b1 : Boat :=
        { b with state :=
          { b.state with
            controlState := controlMode.controlHeading
            compassGoal := goal
            velocityLinearGoal := Vec3.zero
            spinVelocity := degsPerSec
            velocityAngularGoal := Vec3.zero } }
      startVelocityThreadInLock b1

/-- One motor's `Stop` call: on success the motor ends at zero power. -/
def motorStop (m : Motor) : Motor × Err :=
  if m.failStop then (m, ["motor stop failed"]) else ({ m with power := 0 }, [])

/-- The motor loop of `Stop`:
`for _, m := range b.motors \x7b err = multierr.Combine(m.Stop(ctx, nil), err) \x7d`
(each new error is combined in front of the accumulated one). -/
def stopMotors : List Motor → List Motor × Err
  | [] => ([], [])
  | m :: rest =>
    let r := motorStop m
    let rr := stopMotors rest
    (r.1 :: rr.1, rr.2 ++ r.2)

/-- `Stop` from `base.go`: zeroes the two velocity goals (under the lock),
cancels any outstanding operation (`opMgr.CancelRunning`, not part of the
shared state), and commands every motor to stop, combining errors. -/
def Stop (b : Boat) : Boat × Err :=
  let st := { b.state with velocityLinearGoal := Vec3.zero, velocityAngularGoal := Vec3.zero }
  let r := stopMotors b.motors
  ({ b with state := st, motors := r.1 }, r.2)

/-- One motor's `SetPower` call. -/
def motorSetPower (m : Motor) (p : ℚ) : Motor × Err :=
  if m.failSetPower then (m, ["setPower failed"]) else ({ m with power := p }, [])

/-- The dispatch loop of `setPowerInternal`:
`for idx, p := range power` setting each motor's power in turn; on the
first failing motor it returns `multierr.Combine(b.Stop(ctx, nil), err)`
over the boat's current motors.  `done` are the motors already commanded,
the second list argument the motors not yet reached.  (Go would panic on
an index past the motor slice; the allocator returns one power per motor,
so that arm is unreachable.) -/
def dispatchPowers (st : boatState) (ms : Option MovementSensor) (done : List Motor) :
    List ℚ → List Motor → Boat × Err
  | [], rest => (⟨st, done ++ rest, ms⟩, [])
  | _ :: _, [] => (⟨st, done, ms⟩, ["motor index out of range"])
  | p :: ps, m :: rest =>
    let r := motorSetPower m p
    if r.2 = [] then dispatchPowers st ms (done ++ [r.1]) ps rest
    else
      let s := Stop ⟨st, done ++ r.1 :: rest, ms⟩
      (s.1, s.2 ++ r.2)

/-- `setPowerInternal` from `base.go`.  `alloc` stands for
`cfg.ComputePower`, the nlopt-backed thrust allocator (an opaque external
solver, so it is a parameter).  On allocator failure the error is
returned with no motor command; on success the powers are dispatched and
only then are the `lastPower*` fields recorded. -/
def setPowerInternal (b : Boat) (alloc : Vec3 → Vec3 → Except String (List ℚ))
    (linear angular : Vec3) : Boat × Err :=
  match alloc linear angular with
  | Except.error e => (b, [e])
  | Except.ok power =>
    let r := dispatchPowers b.state b.movementSensor [] power b.motors
    if r.2 = [] then
      ({ r.1 with state :=
        { r.1.state with
          lastPower := power
          lastPowerLinear := linear
          lastPowerAngular := angular } }, [])
    else r

/-- `velocityThreadLoop` from `base.go`: one background tick.  Reads the
angular velocity and compass heading, skips when the mode is `none`,
otherwise computes the next powers (reshaping the angular goal first in
heading mode) and dispatches them through `setPowerInternal`.  The source
reads the sensor through a non-nil pointer (the loop only starts with a
sensor configured); an absent sensor is reported as an error here. -/
def velocityThreadLoop (b : Boat) (alloc : Vec3 → Vec3 → Except String (List ℚ)) :
    Boat × Err :=
  match b.movementSensor with
  | none => (b, ["no movementSensor"])
  | some s =>
    match s.angularVelocityZ with
    | Except.error e => (b, [e])
    | Except.ok av =>
      match s.compassHeading with
      | Except.error e => (b, [e])
      | Except.ok heading =>
        match b.state.controlState with
        | controlMode.controlNone => (b, [])
        | controlMode.controlVelocity =>
          let r := computeNextPower b.state av
          setPowerInternal b alloc r.1 r.2
        | controlMode.controlHeading =>
          let st := updateVelocityGoalForHeading b.state heading
          let r := computeNextPower st av
          setPowerInternal { b with state := st } alloc r.1 r.2

/-- `motorWeights` from `config.go`: a motor's (or the vehicle's summed)
contribution to lateral, forward and yaw motion.  Over `ℝ` because the
weight model uses trigonometry. -/
structure motorWeights where
  linearX : ℝ
  linearY : ℝ
  angular : ℝ

/-- `MotorConfig` from the repository configuration: mounting offsets,
thrust-direction angle in degrees, and relative strength. -/
structure MotorConfig where
  xOffsetMM : ℝ
  yOffsetMM : ℝ
  angleDegrees : ℝ
  weight : ℝ

/-- `Config` from `config.go`, restricted to the numeric fields the
weight model consumes. -/
structure Config where
  Motors : List MotorConfig
  LengthMM : ℝ
  WidthMM : ℝ

/-- Modelled from the spec: the body of `MotorConfig.computeWeights` is
not among the provided sources (only its test table `TestMotorWeights`
and its callers `maxWeights` / `weights` are).  Spec §4.1: decompose the
thrust-direction angle into a unit force vector scaled by the motor's
relative strength (angle 0 points along the forward axis), and take the
yaw contribution as the cross-product-style moment of the mounting
offsets, normalized against the vehicle's diagonal length `L` and signed
so the repository's test table is matched (angle 90° at a stern offset
gives lateral +1, yaw −1). -/
noncomputable def MotorConfig.computeWeights (mc : MotorConfig) (L : ℝ) : motorWeights :=
  let θ := mc.angleDegrees * Real.pi / 180
  { linearX := mc.weight * Real.sin θ
    linearY := mc.weight * Real.cos θ
    angular := mc.weight * (mc.yOffsetMM * Real.sin θ - mc.xOffsetMM * Real.cos θ) / L }

/-- The loop body of `maxWeights`: add the absolute value of each weight
component. -/
noncomputable def maxWeightsStep (cfg : Config) (acc : motorWeights) (mc : MotorConfig) :
    motorWeights :=
  let w := mc.computeWeights (Real.sqrt (cfg.WidthMM ^ 2 + cfg.LengthMM ^ 2))
  ⟨acc.linearX + |w.linearX|, acc.linearY + |w.linearY|, acc.angular + |w.angular|⟩

/-- `maxWeights` from `config.go`: the vehicle envelope, the per-axis sum
of the absolute values of every motor's weight components
(`math.Hypot(w, l)` is `Real.sqrt (w^2 + l^2)`). -/
noncomputable def Config.maxWeights (cfg : Config) : motorWeights :=
  cfg.Motors.foldl (maxWeightsStep cfg) ⟨0, 0, 0⟩

/-- A fresh `pidState` after `setDefaults`, as the repository tests build
it. -/
def wPid : pidState := pidState.setDefaults ⟨0, 0, 0, 0, 0, 0, 0⟩

/-- A concrete control state for witnesses. -/
def wState : boatState :=
  ⟨true, controlMode.controlHeading, [1, 0], ⟨0, 0, 0⟩, ⟨0, 0, 1/2⟩, ⟨0, 3, 0⟩, ⟨0, 0, 5⟩, 90, 10⟩

/-- The state of the repository test `TestComputeNextPower`: everything
zero except an angular-velocity goal of 5, velocity-hold mode. -/
def wVelState : boatState :=
  ⟨true, controlMode.controlVelocity, [], Vec3.zero, Vec3.zero, Vec3.zero, ⟨0, 0, 5⟩, 0, 0⟩

/-- A state in heading-hold with heading goal 0 and spin rate 1. -/
def wHeadState : boatState :=
  ⟨true, controlMode.controlHeading, [], Vec3.zero, Vec3.zero, Vec3.zero, Vec3.zero, 0, 1⟩

/-- Healthy motors and one whose `SetPower` fails, for witnesses. -/
def wMotorA : Motor := ⟨7/10, false, false⟩

def wMotorB : Motor := ⟨-1/2, false, false⟩

def wMotorBad : Motor := ⟨0, true, false⟩

/-- A movement sensor whose reads succeed. -/
def wSensor : MovementSensor := ⟨Except.ok 0, Except.ok 0⟩

/-- A boat with no movement sensor and the background thread not
started. -/
def wNoSensorBoat : Boat :=
  ⟨⟨false, controlMode.controlNone, [], Vec3.zero, Vec3.zero, Vec3.zero, Vec3.zero, 0, 0⟩,
   [wMotorA], none⟩

/-- A three-motor boat whose second motor fails `SetPower`. -/
def wBoat3 : Boat := ⟨wState, [wMotorA, wMotorBad, wMotorB], some wSensor⟩

/-- An allocator that solves to three concrete powers. -/
def wAlloc3 : Vec3 → Vec3 → Except String (List ℚ) :=
  fun _ _ => Except.ok [1/2, 1/4, 3/4]

/-- An allocator whose solver fails to initialize. -/
def wAllocErr : Vec3 → Vec3 → Except String (List ℚ) :=
  fun _ _ => Except.error "nlopt init failed"

/-! ### Helper lemmas -/

/-- `Stop` changes only the two velocity goals of the shared state. -/
theorem Stop_state (b : Boat) :
    (Stop b).1.state =
      { b.state with velocityLinearGoal := Vec3.zero, velocityAngularGoal := Vec3.zero } := rfl

/-- When every motor's stop succeeds, stopping zeroes each power and
returns no error. -/
theorem stopMotors_ok (l : List Motor) (h : ∀ m ∈ l, m.failStop = false) :
    stopMotors l = (l.map (fun m => { m with power := 0 }), []) := by
  induction l with
  | nil => rfl
  | cons m rest ih =>
    have hm : m.failStop = false := h m (by simp)
    have hr := ih (fun m' hm' => h m' (by simp [hm']))
    simp [stopMotors, motorStop, hm, hr]

/-- One unfolding of the doubling loop when its guard already fails. -/
theorem doubleUntil_done (d : ℚ) (h : ¬(|d| < 1/100 ∧ d ≠ 0)) : doubleUntil d = d := by
  rw [doubleUntil]
  exact dif_neg h

/-- C2: for every `pidState` and every `Control(target, current, dt)` call
with `dt > 0`, the integral accumulator grows by exactly
`error * dt` (it is never clamped), `previousError` is unconditionally
set to the new error, and the returned output is
`Kp*error + Ki*integral + Kd*(error - previousError)/dt` clamped below at
`minOutput` only when `minOutput ≠ 0` and above at `maxOutput` only when
`maxOutput ≠ 0` (a bound of exactly zero disables that side). -/
theorem pid_control_spec (pid : pidState) (target current dt : ℚ) (_hdt : 0 < dt) :
    ((pid.Control target current dt).2).integral = pid.integral + (target - current) * dt ∧
    ((pid.Control target current dt).2).previousError = target - current ∧
    (pid.Control target current dt).1 =
      clampZeroSentinel pid.minOutput pid.maxOutput
        (pid.proportionalGain * (target - current) +
         pid.integralGain * (pid.integral + (target - current) * dt) +
         pid.derivativeGain * (target - current - pid.previousError) / dt) :=
  ⟨rfl, rfl, rfl⟩

/-- C2 witness: the defaults-configured controller driven with target 5,
current 0, dt = 1/2 s. -/
theorem pid_control_spec_witness :
    (0 : ℚ) < 1/2 ∧
    (((wPid.Control 5 0 (1/2)).2).integral = wPid.integral + (5 - 0) * (1/2) ∧
     ((wPid.Control 5 0 (1/2)).2).previousError = 5 - 0 ∧
     (wPid.Control 5 0 (1/2)).1 =
       clampZeroSentinel wPid.minOutput wPid.maxOutput
         (wPid.proportionalGain * (5 - 0) +
          wPid.integralGain * (wPid.integral + (5 - 0) * (1/2)) +
          wPid.derivativeGain * (5 - 0 - wPid.previousError) / (1/2))) :=
  ⟨by norm_num, pid_control_spec wPid 5 0 (1/2) (by norm_num)⟩

/-- C3: the claim (like the doc comment in the source,
`currentVal=-2 otherVal=1, currentGoal=1, otherGoal=1 = -1`) says the
scaled value keeps the sign of `currentVal`; the code returns
`otherVal * ratioGoal`, whose sign is that of `otherVal`, so at the
source's own documented example it returns `1`, not `-1`. -/
theorem goalScale_sign_bug :
    goalScale (-2) 1 1 1 = 1 ∧ goalScale (-2) 1 1 1 ≠ -1 ∧ goalScale 2 1 1 1 = 1 := by
  norm_num [goalScale]

/-- C4: in the ramp band for negative differences the shaper flips the
sign: at `diff = heading - goal = -3` with spin rate 1 the code sets the
angular goal to `+3/5` (the `diff * -1 / 5` branch), not the `diff/5`
value `-3/5` the claim states — discontinuously against the `-1` it sets
just past `diff = -5`, while the positive side matches the claim. -/
theorem heading_shaper_negative_band_bug :
    (updateVelocityGoalForHeading wHeadState (-3)).velocityAngularGoal.z = 3/5 ∧
    (updateVelocityGoalForHeading wHeadState (-3)).velocityAngularGoal.z ≠ ((-3 : ℚ)/5) * 1 ∧
    (updateVelocityGoalForHeading wHeadState (-6)).velocityAngularGoal.z = -1 ∧
    (updateVelocityGoalForHeading wHeadState 3).velocityAngularGoal.z = 3/5 := by
  norm_num [updateVelocityGoalForHeading, wHeadState]

/-- C6: `Stop` modifies, within the shared control state, only the two
velocity goals (both set to zero); the control mode, heading goal, spin
rate, `threadStarted` and the last-power fields keep their values. -/
theorem stop_frame (b : Boat) :
    (Stop b).1.state.controlState = b.state.controlState ∧
    (Stop b).1.state.compassGoal = b.state.compassGoal ∧
    (Stop b).1.state.spinVelocity = b.state.spinVelocity ∧
    (Stop b).1.state.threadStarted = b.state.threadStarted ∧
    (Stop b).1.state.lastPower = b.state.lastPower ∧
    (Stop b).1.state.lastPowerLinear = b.state.lastPowerLinear ∧
    (Stop b).1.state.lastPowerAngular = b.state.lastPowerAngular ∧
    (Stop b).1.state.velocityLinearGoal = Vec3.zero ∧
    (Stop b).1.state.velocityAngularGoal = Vec3.zero := by
  simp [Stop_state]

/-- C7: with no movement sensor configured and the background thread not
started, `SetVelocity` and `Spin` return the configuration error
immediately and leave the whole boat (mode, goals, heading goal, spin
rate) unchanged. -/
theorem no_sensor_config_error (b : Boat) (linear angular : Vec3) (angleDeg degsPerSec : ℚ)
    (hs : b.movementSensor = none) (ht : b.state.threadStarted = false) :
    SetVelocity b linear angular = (b, ["no movementSensor"]) ∧
    Spin b angleDeg degsPerSec = (b, ["no movementSensor"]) := by
  constructor
  · simp [SetVelocity, startVelocityThreadInLock, hs, ht]
  · simp [Spin, hs]

/-- C7 witness: a concrete sensor-less boat. -/
theorem no_sensor_config_error_witness :
    wNoSensorBoat.movementSensor = none ∧ wNoSensorBoat.state.threadStarted = false ∧
    (SetVelocity wNoSensorBoat ⟨0, 1, 0⟩ Vec3.zero = (wNoSensorBoat, ["no movementSensor"]) ∧
     Spin wNoSensorBoat 90 10 = (wNoSensorBoat, ["no movementSensor"])) :=
  ⟨rfl, rfl, no_sensor_config_error wNoSensorBoat ⟨0, 1, 0⟩ Vec3.zero 90 10 rfl rfl⟩

/-- C5: `Stop` zeroes both velocity goals and commands every motor to
stop; assuming each motor's stop succeeds, it returns no error and a
second call returns exactly the same boat and no error, with every motor
at zero power. -/
theorem stop_idempotent (b : Boat) (h : ∀ m ∈ b.motors, m.failStop = false) :
    (Stop b).2 = [] ∧
    Stop (Stop b).1 = Stop b ∧
    (Stop b).1.state.velocityLinearGoal = Vec3.zero ∧
    (Stop b).1.state.velocityAngularGoal = Vec3.zero ∧
    (Stop b).1.motors.length = b.motors.length ∧
    ∀ m ∈ (Stop b).1.motors, m.power = 0 := by
  have h1 := stopMotors_ok b.motors h
  have h2 : ∀ m ∈ b.motors.map (fun m => { m with power := 0 }), m.failStop = false := by
    intro m hm
    obtain ⟨m0, hm0, rfl⟩ := List.mem_map.mp hm
    exact h m0 hm0
  have h3 := stopMotors_ok _ h2
  have hff : ((fun m => { m with power := 0 }) ∘ (fun m : Motor => { m with power := 0 })) =
      fun m : Motor => { m with power := 0 } := funext fun m => rfl
  refine ⟨by simp [Stop, h1], ?_, rfl, rfl, by simp [Stop, h1], ?_⟩
  · simp [Stop, h1, h3, List.map_map, hff]
  · intro m hm
    have : m ∈ b.motors.map (fun m => { m with power := 0 }) := by
      simpa [Stop, h1] using hm
    obtain ⟨m0, _, rfl⟩ := List.mem_map.mp this
    rfl

/-- C5 witness: a three-motor boat whose stops all succeed. -/
theorem stop_idempotent_witness :
    (∀ m ∈ wBoat3.motors, m.failStop = false) ∧
    ((Stop wBoat3).2 = [] ∧
     Stop (Stop wBoat3).1 = Stop wBoat3 ∧
     (Stop wBoat3).1.state.velocityLinearGoal = Vec3.zero ∧
     (Stop wBoat3).1.state.velocityAngularGoal = Vec3.zero ∧
     (Stop wBoat3).1.motors.length = wBoat3.motors.length ∧
     ∀ m ∈ (Stop wBoat3).1.motors, m.power = 0) :=
  ⟨by simp [wBoat3, wMotorA, wMotorB, wMotorBad],
   stop_idempotent wBoat3 (by simp [wBoat3, wMotorA, wMotorB, wMotorBad])⟩

/-- C1: on a velocity-hold tick the source `computeNextPower` does not run
the PID controllers: at the state of the repository's own test
`TestComputeNextPower` (angular goal 5, measured angular velocity 0) it
returns angular power 5/36 ≈ 0.139, which fails the test's expectation of
0.588 ± 0.01, while the spec's PID tick (both PIDs at their defaults,
dt = the 500 ms loop period) yields exactly 1177/2000 = 0.5885, which
meets it. -/
theorem computeNextPower_no_pid :
    computeNextPower wVelState 0 = (⟨0, 0, 0⟩, ⟨0, 0, 5/36⟩) ∧
    ¬ |(5/36 : ℚ) - 588/1000| < 1/100 ∧
    (nextPowerPIDSpec wPid wPid 0 5 0 0).1.2 = 1177/2000 ∧
    |(1177/2000 : ℚ) - 588/1000| < 1/100 := by
  refine ⟨?_, ?_, ?_, ?_⟩
  · have hdu : doubleUntil ((0 - (5 : ℚ)) / 360) = (0 - 5) / 360 :=
      doubleUntil_done _ (by rw [abs_of_nonpos (by norm_num)]; norm_num)
    simp only [computeNextPower, wVelState, Vec3.zero, hdu]
    rw [if_pos (by rw [abs_of_nonpos (by norm_num)]; norm_num)]
    norm_num
  · rw [abs_of_nonpos (by norm_num)]; norm_num
  · norm_num [nextPowerPIDSpec, pidState.Control, wPid, pidState.setDefaults]
  · rw [abs_of_nonneg (by norm_num)]; norm_num

/-- The dispatch loop of `setPowerInternal` on the first failing motor:
the motors before it (all succeeding) get their powers, the failing
motor triggers a stop of all motors, and the stop error is combined in
front of the original error. -/
theorem dispatchPowers_fail (st : boatState) (ms : Option MovementSensor) (m : Motor)
    (hm : m.failSetPower = true) (p : ℚ) :
    ∀ (pre : List Motor) (ppre : List ℚ) (done : List Motor) (ppost : List ℚ)
      (post : List Motor),
      pre.length = ppre.length →
      (∀ mp ∈ pre, mp.failSetPower = false) →
      dispatchPowers st ms done (ppre ++ p :: ppost) (pre ++ m :: post) =
        ((Stop ⟨st, done ++ pre.zipWith (fun m0 p0 => { m0 with power := p0 }) ppre ++ m :: post, ms⟩).1,
         (Stop ⟨st, done ++ pre.zipWith (fun m0 p0 => { m0 with power := p0 }) ppre ++ m :: post, ms⟩).2 ++
           ["setPower failed"]) := by
  intro pre
  induction pre with
  | nil =>
    intro ppre done ppost post hlen hpre
    have hppre : ppre = [] := by
      cases ppre with
      | nil => rfl
      | cons a l => simp at hlen
    subst hppre
    simp [dispatchPowers, motorSetPower, hm]
  | cons m0 pre' ih =>
    intro ppre done ppost post hlen hpre
    cases ppre with
    | nil => simp at hlen
    | cons p0 ppre' =>
      have h0 : m0.failSetPower = false := hpre m0 (by simp)
      have hrec := ih ppre' (done ++ [{ m0 with power := p0 }]) ppost post
        (by simpa using hlen) (fun mp hmp => hpre mp (by simp [hmp]))
      rw [h0] at hrec
      simp [dispatchPowers, motorSetPower, h0, List.append_assoc] at hrec ⊢
      exact hrec

/-- C8: `setPowerInternal` error behaviour.  When the allocator fails,
the error is returned with the boat untouched (no motor command, no
last-power update).  When a motor's `SetPower` fails, dispatch stops at
that motor, every motor is stop-commanded best-effort, the stop error is
combined in front of the original error, and the stored
`lastPower` / `lastPowerLinear` / `lastPowerAngular` fields keep their
previous values. -/
theorem set_power_internal_error_paths (b : Boat)
    (alloc : Vec3 → Vec3 → Except String (List ℚ)) (linear angular : Vec3) :
    (∀ e, alloc linear angular = Except.error e →
       setPowerInternal b alloc linear angular = (b, [e])) ∧
    (∀ (powers : List ℚ) (pre : List Motor) (m : Motor) (post : List Motor)
       (ppre : List ℚ) (p : ℚ) (ppost : List ℚ),
       alloc linear angular = Except.ok powers →
       powers = ppre ++ p :: ppost →
       b.motors = pre ++ m :: post →
       pre.length = ppre.length →
       (∀ mp ∈ pre, mp.failSetPower = false) →
       m.failSetPower = true →
       (setPowerInternal b alloc linear angular =
         ((Stop ⟨b.state, pre.zipWith (fun m0 p0 => { m0 with power := p0 }) ppre ++ m :: post,
             b.movementSensor⟩).1,
          (Stop ⟨b.state, pre.zipWith (fun m0 p0 => { m0 with power := p0 }) ppre ++ m :: post,
             b.movementSensor⟩).2 ++ ["setPower failed"]) ∧
        (setPowerInternal b alloc linear angular).1.state.lastPower = b.state.lastPower ∧
        (setPowerInternal b alloc linear angular).1.state.lastPowerLinear =
          b.state.lastPowerLinear ∧
        (setPowerInternal b alloc linear angular).1.state.lastPowerAngular =
          b.state.lastPowerAngular)) := by
  constructor
  · intro e he
    simp [setPowerInternal, he]
  · intro powers pre m post ppre p ppost hok hpw hms hlen hpre hm
    have hd := dispatchPowers_fail b.state b.movementSensor m hm p pre ppre [] ppost post
      hlen hpre
    simp only [List.nil_append] at hd
    have hmain : setPowerInternal b alloc linear angular =
        ((Stop ⟨b.state, pre.zipWith (fun m0 p0 => { m0 with power := p0 }) ppre ++ m :: post,
            b.movementSensor⟩).1,
         (Stop ⟨b.state, pre.zipWith (fun m0 p0 => { m0 with power := p0 }) ppre ++ m :: post,
            b.movementSensor⟩).2 ++ ["setPower failed"]) := by
      simp [setPowerInternal, hok, hpw, hms, hd]
    refine ⟨hmain, ?_, ?_, ?_⟩ <;> rw [hmain] <;> simp [Stop_state]

/-- C8 witness: a failing allocator leaves the boat untouched; a boat
whose second motor fails `SetPower` gets the first motor commanded, all
motors stop-commanded, the combined error, and unchanged last-power
fields. -/
theorem set_power_internal_error_paths_witness :
    (wAllocErr ⟨0, 1, 0⟩ Vec3.zero = Except.error "nlopt init failed" ∧
     setPowerInternal wBoat3 wAllocErr ⟨0, 1, 0⟩ Vec3.zero = (wBoat3, ["nlopt init failed"])) ∧
    (wAlloc3 ⟨0, 1, 0⟩ Vec3.zero = Except.ok [1/2, 1/4, 3/4] ∧
     wBoat3.motors = [wMotorA] ++ wMotorBad :: [wMotorB] ∧
     (∀ mp ∈ [wMotorA], mp.failSetPower = false) ∧
     wMotorBad.failSetPower = true ∧
     (setPowerInternal wBoat3 wAlloc3 ⟨0, 1, 0⟩ Vec3.zero =
        ((Stop ⟨wBoat3.state,
            List.zipWith (fun m0 p0 => { m0 with power := p0 }) [wMotorA] [1/2] ++
              wMotorBad :: [wMotorB], wBoat3.movementSensor⟩).1,
         (Stop ⟨wBoat3.state,
            List.zipWith (fun m0 p0 => { m0 with power := p0 }) [wMotorA] [1/2] ++
              wMotorBad :: [wMotorB], wBoat3.movementSensor⟩).2 ++ ["setPower failed"]) ∧
      (setPowerInternal wBoat3 wAlloc3 ⟨0, 1, 0⟩ Vec3.zero).1.state.lastPower =
        wBoat3.state.lastPower ∧
      (setPowerInternal wBoat3 wAlloc3 ⟨0, 1, 0⟩ Vec3.zero).1.state.lastPowerLinear =
        wBoat3.state.lastPowerLinear ∧
      (setPowerInternal wBoat3 wAlloc3 ⟨0, 1, 0⟩ Vec3.zero).1.state.lastPowerAngular =
        wBoat3.state.lastPowerAngular)) :=
  ⟨⟨rfl, (set_power_internal_error_paths wBoat3 wAllocErr ⟨0, 1, 0⟩ Vec3.zero).1
      "nlopt init failed" rfl⟩,
   ⟨rfl, rfl, by simp [wMotorA], rfl,
    (set_power_internal_error_paths wBoat3 wAlloc3 ⟨0, 1, 0⟩ Vec3.zero).2
      [1/2, 1/4, 3/4] [wMotorA] wMotorBad [wMotorB] [1/2] (1/4) [3/4]
      rfl rfl rfl rfl (by simp [wMotorA]) rfl⟩⟩

/-- Folding `maxWeightsStep` over any motor list keeps every component
nonnegative. -/
theorem maxWeights_fold_nonneg (cfg : Config) (l : List MotorConfig) :
    ∀ acc : motorWeights, 0 ≤ acc.linearX → 0 ≤ acc.linearY → 0 ≤ acc.angular →
      0 ≤ (l.foldl (maxWeightsStep cfg) acc).linearX ∧
      0 ≤ (l.foldl (maxWeightsStep cfg) acc).linearY ∧
      0 ≤ (l.foldl (maxWeightsStep cfg) acc).angular := by
  induction l with
  | nil =>
    intro acc hx hy ha
    exact ⟨hx, hy, ha⟩
  | cons mc rest ih =>
    intro acc hx hy ha
    simp only [List.foldl_cons]
    refine ih _ ?_ ?_ ?_
    · simp only [maxWeightsStep]
      exact add_nonneg hx (abs_nonneg _)
    · simp only [maxWeightsStep]
      exact add_nonneg hy (abs_nonneg _)
    · simp only [maxWeightsStep]
      exact add_nonneg ha (abs_nonneg _)

/-- C10: for every configuration — any motor list, any width and length —
each component of the vehicle envelope `maxWeights` is nonnegative, being
a sum of absolute values of per-motor weight components. -/
theorem maxWeights_nonneg (cfg : Config) :
    0 ≤ cfg.maxWeights.linearX ∧ 0 ≤ cfg.maxWeights.linearY ∧ 0 ≤ cfg.maxWeights.angular :=
  maxWeights_fold_nonneg cfg cfg.Motors ⟨0, 0, 0⟩ le_rfl le_rfl le_rfl

